import Mathlib

/-!
# Verification of the youtube-hot-videos backend core

Shallow embedding of the pure logic of `src/backend/app.py`,
`src/backend/db.py` and `src/backend/refresh_favorites.py`, together with
theorems settling the specification claims about it.

Network responses (the upstream search / details / statistics endpoints) are
modelled as explicit input data; timestamps are modelled as integers (the code
stores ISO-8601 UTC strings of a fixed format, whose lexicographic order
coincides with chronological order); SQLite tables are modelled as Lean lists.
-/

namespace YTShorts

/-! ## Duration codec

Embeds `DURATION_RE` / `parse_iso_duration` from `src/backend/app.py`
(lines 26-42).  The regex is
`PT(?:(\d+)H)?(?:(\d+)M)?(?:(\d+)S)?` with `re.IGNORECASE`, used via
`fullmatch`; a failed match yields 0.  Since each optional group is
"maximal digit run followed by a unit letter", the regex never needs
backtracking and is embedded as a deterministic three-component scanner.
Digits are ASCII `0-9` (`Char.isDigit`). -/

/-- Numeric value of a run of ASCII digits, as Python's `int` computes it. -/
def digitsVal (cs : List Char) : Nat :=
  cs.foldl (fun a c => a * 10 + (c.toNat - 48)) 0

/-- Try to scan one regex group `(?:(\d+)U)?` (case-insensitive unit letter
`unit`, given in lower case) at the head of `cs`: a non-empty maximal digit
run followed by the unit letter.  Returns the group's value and the rest,
or `none` when the group does not match here. -/
def scanComp (unit : Char) (cs : List Char) : Option (Nat × List Char) :=
  let ds := cs.takeWhile (·.isDigit)
  if ds.isEmpty then none
  else
    match cs.dropWhile (·.isDigit) with
    | [] => none
    | c :: rest => if c.toLower = unit then some (digitsVal ds, rest) else none

/-- An optional regex group: on failure the position is unchanged and the
captured value is absent (contributing 0, as `int(match.group(..) or 0)`). -/
def tryComp (unit : Char) (cs : List Char) : Nat × List Char :=
  match scanComp unit cs with
  | some (n, rest) => (n, rest)
  | none => (0, cs)

/-- `DURATION_RE.fullmatch`: case-insensitive `PT` prefix, then the three
optional components, and nothing may remain (fullmatch). -/
def durMatch (s : String) : Option (Nat × Nat × Nat) :=
  match s.data with
  | p :: t :: rest =>
    if p.toLower = 'p' ∧ t.toLower = 't' then
      let (h, r1) := tryComp 'h' rest
      let (m, r2) := tryComp 'm' r1
      let (sec, r3) := tryComp 's' r2
      if r3.isEmpty then some (h, m, sec) else none
    else none
  | _ => none

/-- `parse_iso_duration` from `src/backend/app.py`. -/
def parse_iso_duration (s : String) : Nat :=
  match durMatch s with
  | none => 0
  | some (h, m, sec) => h * 3600 + m * 60 + sec

example : parse_iso_duration "PT1H30M45S" = 5445 := by decide
example : parse_iso_duration "PT30S" = 30 := by decide
example : parse_iso_duration "pt1m30s" = 90 := by decide
example : parse_iso_duration "P1D" = 0 := by decide
example : parse_iso_duration "1M30S" = 0 := by decide
example : parse_iso_duration "PT" = 0 := by decide
example : parse_iso_duration "" = 0 := by decide

theorem takeWhile_digits_append (ds : List Char) (h : ∀ c ∈ ds, c.isDigit = true)
    (u : Char) (hu : u.isDigit = false) (rest : List Char) :
    (ds ++ u :: rest).takeWhile (·.isDigit) = ds ∧
    (ds ++ u :: rest).dropWhile (·.isDigit) = u :: rest := by
  induction ds with
  | nil => simp [List.takeWhile_cons, List.dropWhile_cons, hu]
  | cons c t ih =>
    have hc : c.isDigit = true := h c (by simp)
    have ht : ∀ c ∈ t, c.isDigit = true := fun c hm => h c (by simp [hm])
    obtain ⟨h1, h2⟩ := ih ht
    simp [List.takeWhile_cons, List.dropWhile_cons, hc, h1, h2]

theorem scanComp_match (unit u : Char) (ds rest : List Char)
    (hds : ∀ c ∈ ds, c.isDigit = true) (hne : ds ≠ [])
    (hu : u.isDigit = false) (hul : u.toLower = unit) :
    scanComp unit (ds ++ u :: rest) = some (digitsVal ds, rest) := by
  obtain ⟨h1, h2⟩ := takeWhile_digits_append ds hds u hu rest
  simp [scanComp, h1, h2, hne, hul]

theorem scanComp_miss (unit u : Char) (ds rest : List Char)
    (hds : ∀ c ∈ ds, c.isDigit = true)
    (hu : u.isDigit = false) (hul : u.toLower ≠ unit) :
    scanComp unit (ds ++ u :: rest) = none := by
  obtain ⟨h1, h2⟩ := takeWhile_digits_append ds hds u hu rest
  by_cases hne : ds = []
  · subst hne; simp [scanComp, List.takeWhile_cons, List.dropWhile_cons, hu]
  · simp [scanComp, h1, h2, hne, hul]

theorem tryComp_match (unit u : Char) (ds rest : List Char)
    (hds : ∀ c ∈ ds, c.isDigit = true) (hne : ds ≠ [])
    (hu : u.isDigit = false) (hul : u.toLower = unit) :
    tryComp unit (ds ++ u :: rest) = (digitsVal ds, rest) := by
  simp [tryComp, scanComp_match unit u ds rest hds hne hu hul]

theorem tryComp_miss (unit u : Char) (ds rest : List Char)
    (hds : ∀ c ∈ ds, c.isDigit = true)
    (hu : u.isDigit = false) (hul : u.toLower ≠ unit) :
    tryComp unit (ds ++ u :: rest) = (0, ds ++ u :: rest) := by
  simp [tryComp, scanComp_miss unit u ds rest hds hu hul]

theorem tryComp_nil (unit : Char) : tryComp unit [] = (0, []) := rfl

/-- C3: every string matching the compact-duration grammar (case-insensitive
`PT` prefix, then optional hours/minutes/seconds components, absent components
counting as 0) decodes to `h*3600 + m*60 + s`; a string the grammar rejects
(wrong prefix, unsupported component such as days, stray characters) decodes
to 0, and the decoder is a total function (it never raises). -/
theorem parse_iso_duration_grammar
    (p t uH uM uS : Char) (hd md sd : List Char) (bH bM bS : Bool)
    (hp : p = 'p' ∨ p = 'P') (ht : t = 't' ∨ t = 'T')
    (hH : uH = 'h' ∨ uH = 'H') (hM : uM = 'm' ∨ uM = 'M') (hS : uS = 's' ∨ uS = 'S')
    (hhd : ∀ c ∈ hd, c.isDigit = true) (hmd : ∀ c ∈ md, c.isDigit = true)
    (hsd : ∀ c ∈ sd, c.isDigit = true)
    (hne1 : bH = true → hd ≠ []) (hne2 : bM = true → md ≠ [])
    (hne3 : bS = true → sd ≠ []) :
    parse_iso_duration (String.mk (p :: t ::
        (cond bH (hd ++ [uH]) [] ++ (cond bM (md ++ [uM]) [] ++ cond bS (sd ++ [uS]) []))))
      = (cond bH (digitsVal hd) 0) * 3600 + (cond bM (digitsVal md) 0) * 60
        + cond bS (digitsVal sd) 0
    ∧ (∀ s, durMatch s = none → parse_iso_duration s = 0)
    ∧ parse_iso_duration "P1D" = 0 ∧ parse_iso_duration "1M30S" = 0
    ∧ parse_iso_duration "invalid" = 0 ∧ parse_iso_duration "" = 0 := by
  have hpl : p.toLower = 'p' := by rcases hp with rfl | rfl <;> decide
  have htl : t.toLower = 't' := by rcases ht with rfl | rfl <;> decide
  have hHl : uH.toLower = 'h' := by rcases hH with rfl | rfl <;> decide
  have hMl : uM.toLower = 'm' := by rcases hM with rfl | rfl <;> decide
  have hSl : uS.toLower = 's' := by rcases hS with rfl | rfl <;> decide
  have hHd : uH.isDigit = false := by rcases hH with rfl | rfl <;> decide
  have hMd : uM.isDigit = false := by rcases hM with rfl | rfl <;> decide
  have hSd : uS.isDigit = false := by rcases hS with rfl | rfl <;> decide
  refine ⟨?_, ?_, by decide, by decide, by decide, by decide⟩
  · cases bH <;> cases bM <;> cases bS
    · simp [parse_iso_duration, durMatch, hpl, htl, tryComp_nil]
    · have e1 : tryComp 'h' (sd ++ uS :: []) = (0, sd ++ uS :: []) :=
        tryComp_miss _ _ _ _ hsd hSd (by rw [hSl]; decide)
      have e2 : tryComp 'm' (sd ++ uS :: []) = (0, sd ++ uS :: []) :=
        tryComp_miss _ _ _ _ hsd hSd (by rw [hSl]; decide)
      have e3 : tryComp 's' (sd ++ uS :: []) = (digitsVal sd, []) :=
        tryComp_match _ _ _ _ hsd (hne3 rfl) hSd hSl
      simp [parse_iso_duration, durMatch, hpl, htl, e1, e2, e3]
    · have e1 : tryComp 'h' (md ++ uM :: []) = (0, md ++ uM :: []) :=
        tryComp_miss _ _ _ _ hmd hMd (by rw [hMl]; decide)
      have e2 : tryComp 'm' (md ++ uM :: []) = (digitsVal md, []) :=
        tryComp_match _ _ _ _ hmd (hne2 rfl) hMd hMl
      simp [parse_iso_duration, durMatch, hpl, htl, e1, e2, tryComp_nil]
    · have e1 : tryComp 'h' (md ++ uM :: (sd ++ uS :: [])) = (0, md ++ uM :: (sd ++ uS :: [])) :=
        tryComp_miss _ _ _ _ hmd hMd (by rw [hMl]; decide)
      have e2 : tryComp 'm' (md ++ uM :: (sd ++ uS :: [])) = (digitsVal md, sd ++ uS :: []) :=
        tryComp_match _ _ _ _ hmd (hne2 rfl) hMd hMl
      have e3 : tryComp 's' (sd ++ uS :: []) = (digitsVal sd, []) :=
        tryComp_match _ _ _ _ hsd (hne3 rfl) hSd hSl
      simp [parse_iso_duration, durMatch, hpl, htl, List.append_assoc, e1, e2, e3]
    · have e1 : tryComp 'h' (hd ++ uH :: []) = (digitsVal hd, []) :=
        tryComp_match _ _ _ _ hhd (hne1 rfl) hHd hHl
      simp [parse_iso_duration, durMatch, hpl, htl, e1, tryComp_nil]
    · have e1 : tryComp 'h' (hd ++ uH :: (sd ++ uS :: [])) = (digitsVal hd, sd ++ uS :: []) :=
        tryComp_match _ _ _ _ hhd (hne1 rfl) hHd hHl
      have e2 : tryComp 'm' (sd ++ uS :: []) = (0, sd ++ uS :: []) :=
        tryComp_miss _ _ _ _ hsd hSd (by rw [hSl]; decide)
      have e3 : tryComp 's' (sd ++ uS :: []) = (digitsVal sd, []) :=
        tryComp_match _ _ _ _ hsd (hne3 rfl) hSd hSl
      simp [parse_iso_duration, durMatch, hpl, htl, List.append_assoc, e1, e2, e3]
    · have e1 : tryComp 'h' (hd ++ uH :: (md ++ uM :: [])) = (digitsVal hd, md ++ uM :: []) :=
        tryComp_match _ _ _ _ hhd (hne1 rfl) hHd hHl
      have e2 : tryComp 'm' (md ++ uM :: []) = (digitsVal md, []) :=
        tryComp_match _ _ _ _ hmd (hne2 rfl) hMd hMl
      simp [parse_iso_duration, durMatch, hpl, htl, List.append_assoc, e1, e2, tryComp_nil]
    · have e1 : tryComp 'h' (hd ++ uH :: (md ++ uM :: (sd ++ uS :: [])))
          = (digitsVal hd, md ++ uM :: (sd ++ uS :: [])) :=
        tryComp_match _ _ _ _ hhd (hne1 rfl) hHd hHl
      have e2 : tryComp 'm' (md ++ uM :: (sd ++ uS :: [])) = (digitsVal md, sd ++ uS :: []) :=
        tryComp_match _ _ _ _ hmd (hne2 rfl) hMd hMl
      have e3 : tryComp 's' (sd ++ uS :: []) = (digitsVal sd, []) :=
        tryComp_match _ _ _ _ hsd (hne3 rfl) hSd hSl
      simp [parse_iso_duration, durMatch, hpl, htl, List.append_assoc, e1, e2, e3]
  · intro s h
    simp [parse_iso_duration, h]

/-- Witness for C3 at `"PT1H30M45S"`: the grammar theorem instantiated at a
concrete matching input yields 1*3600 + 30*60 + 45 = 5445. -/
theorem parse_iso_duration_grammar_witness :
    parse_iso_duration (String.mk ('P' :: 'T' ::
        (cond true (['1'] ++ ['H']) [] ++ (cond true (['3', '0'] ++ ['M']) []
          ++ cond true (['4', '5'] ++ ['S']) []))))
      = (cond true (digitsVal ['1']) 0) * 3600 + (cond true (digitsVal ['3', '0']) 0) * 60
        + cond true (digitsVal ['4', '5']) 0 :=
  (parse_iso_duration_grammar 'P' 'T' 'H' 'M' 'S' ['1'] ['3', '0'] ['4', '5'] true true true
    (Or.inr rfl) (Or.inr rfl) (Or.inr rfl) (Or.inr rfl) (Or.inr rfl)
    (by decide) (by decide) (by decide)
    (fun _ => by decide) (fun _ => by decide) (fun _ => by decide)).1

/-! ## Stable descending sort

Models Python's `sorted(xs, key=..., reverse=True)`: a stable sort placing
larger keys first.  Implemented as insertion sort; an element is inserted
before the first element whose key is not larger, which preserves the
original order of equal keys. -/

section SortDesc

variable {α β : Type} [LinearOrder β]

/-- Insert `a` into a descending-sorted list, after all strictly larger keys. -/
def insDesc (key : α → β) (a : α) : List α → List α
  | [] => [a]
  | b :: l => if key a < key b then b :: insDesc key a l else a :: b :: l

/-- Stable descending sort by `key` (Python `sorted(key=..., reverse=True)`). -/
def sortDesc (key : α → β) (l : List α) : List α :=
  l.foldr (insDesc key) []

theorem insDesc_perm (key : α → β) (a : α) (l : List α) :
    List.Perm (insDesc key a l) (a :: l) := by
  induction l with
  | nil => exact List.Perm.refl _
  | cons b t ih =>
    by_cases h : key a < key b
    · simp only [insDesc, if_pos h]
      exact (ih.cons b).trans (List.Perm.swap _ _ _)
    · simp [insDesc, if_neg h]

theorem sortDesc_perm (key : α → β) (l : List α) : List.Perm (sortDesc key l) l := by
  induction l with
  | nil => exact List.Perm.refl _
  | cons a t ih => exact (insDesc_perm key a _).trans (ih.cons a)

theorem insDesc_sorted (key : α → β) (a : α) (l : List α)
    (h : l.Pairwise (fun x y => key y ≤ key x)) :
    (insDesc key a l).Pairwise (fun x y => key y ≤ key x) := by
  induction l with
  | nil => simp [insDesc]
  | cons b t ih =>
    rw [List.pairwise_cons] at h
    obtain ⟨hb, ht⟩ := h
    by_cases hab : key a < key b
    · simp only [insDesc, if_pos hab]
      rw [List.pairwise_cons]
      refine ⟨fun x hx => ?_, ih ht⟩
      rcases List.mem_cons.mp ((insDesc_perm key a t).mem_iff.mp hx) with rfl | hx'
      · exact le_of_lt hab
      · exact hb x hx'
    · simp only [insDesc, if_neg hab]
      rw [List.pairwise_cons]
      refine ⟨fun x hx => ?_, List.pairwise_cons.mpr ⟨hb, ht⟩⟩
      rcases List.mem_cons.mp hx with hx | hx
      · subst hx; exact le_of_not_lt hab
      · exact le_trans (hb x hx) (le_of_not_lt hab)

theorem sortDesc_sorted (key : α → β) (l : List α) :
    (sortDesc key l).Pairwise (fun x y => key y ≤ key x) := by
  induction l with
  | nil => simp [sortDesc]
  | cons a t ih => exact insDesc_sorted key a _ ih

theorem sortDesc_mem (key : α → β) (l : List α) (x : α) :
    x ∈ sortDesc key l ↔ x ∈ l :=
  (sortDesc_perm key l).mem_iff

end SortDesc

/-! ## Video candidates and the multi-keyword merge

`VideoCandidate` records are dicts built in `fetch_shorts`
(`src/backend/app.py` lines 112-125); the `/collect` endpoint merges the
per-keyword lists into a `video_id`-keyed dict (`src/backend/app.py` lines
204-215).  Python dicts preserve insertion order and update values in place,
which an association list with in-place replacement models exactly. -/

structure Video where
  video_id : String
  title : String := ""
  channel_id : String := ""
  channel_title : String := ""
  published_at : String := ""
  duration_seconds : Nat := 0
  view_count : Nat := 0
  like_count : Nat := 0
  comment_count : Nat := 0
  tags : List String := []
deriving Repr, DecidableEq

/-- `merged.get(vid)`. -/
def assocLookup (m : List (String × Video)) (k : String) : Option Video :=
  match m with
  | [] => none
  | (k', v) :: t => if k' = k then some v else assocLookup t k

/-- `merged[vid] = item`: replace in place, or append a fresh key (Python dict
insertion-order semantics). -/
def assocSet (m : List (String × Video)) (k : String) (v : Video) :
    List (String × Video) :=
  match m with
  | [] => [(k, v)]
  | (k', v') :: t => if k' = k then (k', v) :: t else (k', v') :: assocSet t k v

/-- One iteration of the merge loop body (`src/backend/app.py` lines 208-214):
skip falsy ids; insert new ids; replace only on strictly greater view_count. -/
def mergeStep (m : List (String × Video)) (item : Video) : List (String × Video) :=
  if item.video_id = "" then m
  else
    match assocLookup m item.video_id with
    | none => assocSet m item.video_id item
    | some existing =>
      if item.view_count > existing.view_count then assocSet m item.video_id item
      else m

/-- The `/collect` merge: fold every per-keyword candidate list through the
merge loop, then `sorted(merged.values(), key=view_count, reverse=True)[:max_results]`. -/
def collectMerge (parts : List (List Video)) (max_results : Nat) : List Video :=
  let merged := parts.foldl (fun m part => part.foldl mergeStep m) []
  (sortDesc (·.view_count) (merged.map (·.2))).take max_results

theorem assocLookup_set_self (m : List (String × Video)) (k : String) (v : Video) :
    assocLookup (assocSet m k v) k = some v := by
  induction m with
  | nil => simp [assocSet, assocLookup]
  | cons p t ih =>
    by_cases h : p.1 = k
    · simp [assocSet, assocLookup, h]
    · simp [assocSet, assocLookup, h, ih]

theorem assocLookup_set_other (m : List (String × Video)) (k k' : String) (v : Video)
    (h : k' ≠ k) : assocLookup (assocSet m k v) k' = assocLookup m k' := by
  have hkk : ¬(k = k') := fun e => h e.symm
  induction m with
  | nil => simp [assocSet, assocLookup, hkk]
  | cons p t ih =>
    by_cases hp : p.1 = k
    · simp [assocSet, assocLookup, hp, hkk]
    · by_cases hp' : p.1 = k'
      · simp [assocSet, assocLookup, hp, hp', h]
      · simp [assocSet, assocLookup, hp, hp', ih]

theorem assocLookup_none_not_key (m : List (String × Video)) (k : String)
    (h : assocLookup m k = none) : ∀ p ∈ m, p.1 ≠ k := by
  induction m with
  | nil => simp
  | cons q t ih =>
    by_cases hq : q.1 = k
    · simp [assocLookup, hq] at h
    · simp only [assocLookup, hq, if_neg] at h
      intro p hp
      rcases List.mem_cons.mp hp with rfl | hp'
      · exact hq
      · exact ih h p hp'

theorem assocLookup_some_mem (m : List (String × Video)) (k : String) (v : Video)
    (h : assocLookup m k = some v) : (k, v) ∈ m := by
  induction m with
  | nil => simp [assocLookup] at h
  | cons q t ih =>
    by_cases hq : q.1 = k
    · simp only [assocLookup, hq, if_pos] at h
      obtain rfl := Option.some_inj.mp h
      exact List.mem_cons.mpr (Or.inl (by rw [← hq]))
    · simp only [assocLookup, hq, if_neg, not_false_iff] at h
      exact List.mem_cons.mpr (Or.inr (ih h))

theorem keys_assocSet_some (m : List (String × Video)) (k : String) (v v' : Video)
    (h : assocLookup m k = some v') :
    (assocSet m k v).map Prod.fst = m.map Prod.fst := by
  induction m with
  | nil => simp [assocLookup] at h
  | cons q t ih =>
    by_cases hq : q.1 = k
    · simp [assocSet, hq]
    · simp only [assocLookup, hq, if_neg, not_false_iff] at h
      simp [assocSet, hq, ih h]

theorem keys_assocSet_none (m : List (String × Video)) (k : String) (v : Video)
    (h : assocLookup m k = none) :
    (assocSet m k v).map Prod.fst = m.map Prod.fst ++ [k] := by
  induction m with
  | nil => simp [assocSet]
  | cons q t ih =>
    by_cases hq : q.1 = k
    · simp [assocLookup, hq] at h
    · simp only [assocLookup, hq, if_neg, not_false_iff] at h
      simp [assocSet, hq, ih h]

theorem mem_assocSet_nodup (m : List (String × Video)) (k : String) (v : Video)
    (hnd : (m.map Prod.fst).Nodup) (p : String × Video) (hp : p ∈ assocSet m k v) :
    p = (k, v) ∨ (p ∈ m ∧ p.1 ≠ k) := by
  induction m with
  | nil => simp [assocSet] at hp; simp [hp]
  | cons q t ih =>
    simp only [List.map_cons, List.nodup_cons] at hnd
    obtain ⟨hq1, hq2⟩ := hnd
    by_cases hq : q.1 = k
    · simp only [assocSet, hq, if_pos] at hp
      rcases List.mem_cons.mp hp with rfl | hp'
      · exact Or.inl rfl
      · refine Or.inr ⟨List.mem_cons.mpr (Or.inr hp'), ?_⟩
        intro hk
        apply hq1
        rw [hq, ← hk]
        exact List.mem_map_of_mem Prod.fst hp'
    · simp only [assocSet, hq, if_neg, not_false_iff] at hp
      rcases List.mem_cons.mp hp with rfl | hp'
      · exact Or.inr ⟨List.mem_cons.mpr (Or.inl rfl), hq⟩
      · rcases ih hq2 hp' with h | ⟨h1, h2⟩
        · exact Or.inl h
        · exact Or.inr ⟨List.mem_cons.mpr (Or.inr h1), h2⟩

theorem assocLookup_eq_of_mem (m : List (String × Video))
    (hnd : (m.map Prod.fst).Nodup) (p : String × Video) (hp : p ∈ m) :
    assocLookup m p.1 = some p.2 := by
  induction m with
  | nil => simp at hp
  | cons q t ih =>
    simp only [List.map_cons, List.nodup_cons] at hnd
    obtain ⟨hq1, hq2⟩ := hnd
    rcases List.mem_cons.mp hp with rfl | hp'
    · simp [assocLookup]
    · have hne : q.1 ≠ p.1 := by
        intro he
        exact hq1 (he ▸ List.mem_map_of_mem Prod.fst hp')
      simp [assocLookup, hne, ih hq2 hp']

theorem mergeStep_skip (m : List (String × Video)) (it : Video)
    (h : it.video_id = "") : mergeStep m it = m := by
  simp [mergeStep, h]

theorem mergeStep_new (m : List (String × Video)) (it : Video)
    (h : it.video_id ≠ "") (hlk : assocLookup m it.video_id = none) :
    mergeStep m it = assocSet m it.video_id it := by
  simp [mergeStep, h, hlk]

theorem mergeStep_replace (m : List (String × Video)) (it ex : Video)
    (h : it.video_id ≠ "") (hlk : assocLookup m it.video_id = some ex)
    (hgt : ex.view_count < it.view_count) :
    mergeStep m it = assocSet m it.video_id it := by
  simp [mergeStep, h, hlk, hgt]

theorem mergeStep_keep (m : List (String × Video)) (it ex : Video)
    (hlk : assocLookup m it.video_id = some ex)
    (hle : it.view_count ≤ ex.view_count) :
    mergeStep m it = m := by
  by_cases h : it.video_id = ""
  · exact mergeStep_skip m it h
  · simp [mergeStep, h, hlk, not_lt.mpr hle]

/-- Invariant of the `/collect` merge loop after processing `items`: keys are
distinct and non-empty, each stored value carries its key as identity, is one
of the processed candidates, and holds the largest view_count observed for
that identity; every processed non-empty identity has an entry. -/
def MergeInv (items : List Video) (m : List (String × Video)) : Prop :=
  (m.map Prod.fst).Nodup ∧
  (∀ p ∈ m, p.2.video_id = p.1 ∧ p.1 ≠ "" ∧ p.2 ∈ items ∧
    ∀ it ∈ items, it.video_id = p.1 → it.view_count ≤ p.2.view_count) ∧
  (∀ it ∈ items, it.video_id ≠ "" → (assocLookup m it.video_id).isSome = true)

theorem mergeStep_inv (items : List Video) (m : List (String × Video)) (it : Video)
    (h : MergeInv items m) : MergeInv (items ++ [it]) (mergeStep m it) := by
  obtain ⟨hnd, hvals, hcov⟩ := h
  by_cases hid : it.video_id = ""
  · rw [mergeStep_skip m it hid]
    refine ⟨hnd, ?_, ?_⟩
    · intro p hp
      obtain ⟨h1, h2, h3, h4⟩ := hvals p hp
      refine ⟨h1, h2, List.mem_append_left _ h3, ?_⟩
      intro jt hjt hj
      rcases List.mem_append.mp hjt with hjt | hjt
      · exact h4 jt hjt hj
      · obtain rfl := List.mem_singleton.mp hjt
        rw [hid] at hj
        exact absurd hj.symm h2
    · intro jt hjt hne
      rcases List.mem_append.mp hjt with hjt | hjt
      · exact hcov jt hjt hne
      · obtain rfl := List.mem_singleton.mp hjt
        exact absurd hid hne
  · cases hlk : assocLookup m it.video_id with
    | none =>
      rw [mergeStep_new m it hid hlk]
      have hkeys := keys_assocSet_none m it.video_id it hlk
      have hnotk : it.video_id ∉ m.map Prod.fst := by
        intro hmem
        obtain ⟨p, hp, hpe⟩ := List.mem_map.mp hmem
        exact assocLookup_none_not_key m it.video_id hlk p hp hpe
      refine ⟨?_, ?_, ?_⟩
      · rw [hkeys]
        refine List.Nodup.append hnd (List.nodup_singleton _) ?_
        intro a ha hb
        obtain rfl := List.mem_singleton.mp hb
        exact hnotk ha
      · intro p hp
        rcases mem_assocSet_nodup m it.video_id it hnd p hp with rfl | ⟨hpm, hpk⟩
        · refine ⟨rfl, hid, List.mem_append_right _ (List.mem_singleton.mpr rfl), ?_⟩
          intro jt hjt hj
          rcases List.mem_append.mp hjt with hjt | hjt
          · exfalso
            have hc := hcov jt hjt (by rw [hj]; exact hid)
            rw [hj] at hc
            simp [hlk] at hc
          · obtain rfl := List.mem_singleton.mp hjt
            exact le_refl _
        · obtain ⟨h1, h2, h3, h4⟩ := hvals p hpm
          refine ⟨h1, h2, List.mem_append_left _ h3, ?_⟩
          intro jt hjt hj
          rcases List.mem_append.mp hjt with hjt | hjt
          · exact h4 jt hjt hj
          · obtain rfl := List.mem_singleton.mp hjt
            exact absurd hj.symm hpk
      · intro jt hjt hne
        rcases List.mem_append.mp hjt with hjt | hjt
        · by_cases hj : jt.video_id = it.video_id
          · rw [hj, assocLookup_set_self]; rfl
          · rw [assocLookup_set_other m it.video_id jt.video_id it hj]
            exact hcov jt hjt hne
        · obtain rfl := List.mem_singleton.mp hjt
          rw [assocLookup_set_self]; rfl
    | some ex =>
      by_cases hgt : ex.view_count < it.view_count
      · rw [mergeStep_replace m it ex hid hlk hgt]
        have hkeys := keys_assocSet_some m it.video_id it ex hlk
        have hexm : (it.video_id, ex) ∈ m := assocLookup_some_mem m it.video_id ex hlk
        obtain ⟨he1, he2, he3, he4⟩ := hvals _ hexm
        refine ⟨by rw [hkeys]; exact hnd, ?_, ?_⟩
        · intro p hp
          rcases mem_assocSet_nodup m it.video_id it hnd p hp with rfl | ⟨hpm, hpk⟩
          · refine ⟨rfl, hid, List.mem_append_right _ (List.mem_singleton.mpr rfl), ?_⟩
            intro jt hjt hj
            rcases List.mem_append.mp hjt with hjt | hjt
            · exact le_trans (he4 jt hjt hj) (le_of_lt hgt)
            · obtain rfl := List.mem_singleton.mp hjt
              exact le_refl _
          · obtain ⟨h1, h2, h3, h4⟩ := hvals p hpm
            refine ⟨h1, h2, List.mem_append_left _ h3, ?_⟩
            intro jt hjt hj
            rcases List.mem_append.mp hjt with hjt | hjt
            · exact h4 jt hjt hj
            · obtain rfl := List.mem_singleton.mp hjt
              exact absurd hj.symm hpk
        · intro jt hjt hne
          rcases List.mem_append.mp hjt with hjt | hjt
          · by_cases hj : jt.video_id = it.video_id
            · rw [hj, assocLookup_set_self]; rfl
            · rw [assocLookup_set_other m it.video_id jt.video_id it hj]
              exact hcov jt hjt hne
          · obtain rfl := List.mem_singleton.mp hjt
            rw [assocLookup_set_self]; rfl
      · rw [mergeStep_keep m it ex hlk (le_of_not_lt hgt)]
        refine ⟨hnd, ?_, ?_⟩
        · intro p hp
          obtain ⟨h1, h2, h3, h4⟩ := hvals p hp
          refine ⟨h1, h2, List.mem_append_left _ h3, ?_⟩
          intro jt hjt hj
          rcases List.mem_append.mp hjt with hjt | hjt
          · exact h4 jt hjt hj
          · obtain rfl := List.mem_singleton.mp hjt
            have hup : assocLookup m p.1 = some p.2 := assocLookup_eq_of_mem m hnd p hp
            rw [← hj, hlk] at hup
            obtain rfl := Option.some_inj.mp hup
            exact le_of_not_lt hgt
        · intro jt hjt hne
          rcases List.mem_append.mp hjt with hjt | hjt
          · exact hcov jt hjt hne
          · obtain rfl := List.mem_singleton.mp hjt
            rw [hlk]; rfl

theorem mergeFold_inv (todo : List Video) :
    ∀ (processed : List Video) (m : List (String × Video)),
    MergeInv processed m → MergeInv (processed ++ todo) (todo.foldl mergeStep m) := by
  induction todo with
  | nil =>
    intro processed m h
    simpa using h
  | cons it rest ih =>
    intro processed m h
    have h1 := mergeStep_inv processed m it h
    have h2 := ih (processed ++ [it]) (mergeStep m it) h1
    simpa [List.append_assoc] using h2

theorem mergeInv_nil : MergeInv [] [] := by
  refine ⟨List.nodup_nil, ?_, ?_⟩ <;> simp

/-- C1: in the `/collect` multi-keyword merge, a stored candidate is replaced
only when the incoming candidate's view_count is strictly greater; the merged
result contains each identity at most once, carries the highest view_count
observed for that identity across all keyword result lists, is sorted by
view_count descending and is truncated to `max_results`. -/
theorem collect_merge_spec (parts : List (List Video)) (max_results : Nat) :
    ((collectMerge parts max_results).map (·.video_id)).Nodup ∧
    (collectMerge parts max_results).Pairwise (fun a b => b.view_count ≤ a.view_count) ∧
    (collectMerge parts max_results).length ≤ max_results ∧
    (∀ r ∈ collectMerge parts max_results,
      r ∈ parts.flatten ∧
      ∀ it ∈ parts.flatten, it.video_id = r.video_id → it.view_count ≤ r.view_count) ∧
    (∀ (m : List (String × Video)) (item ex : Video),
      assocLookup m item.video_id = some ex → item.view_count ≤ ex.view_count →
      mergeStep m item = m) := by
  have hinv : MergeInv parts.flatten
      (parts.foldl (fun m part => part.foldl mergeStep m) []) := by
    have h := mergeFold_inv parts.flatten [] [] mergeInv_nil
    rw [List.foldl_flatten] at h
    simpa using h
  obtain ⟨hnd, hvals, hcov⟩ := hinv
  have hcm : collectMerge parts max_results
      = (sortDesc (·.view_count)
          ((parts.foldl (fun m part => part.foldl mergeStep m) []).map (·.2))).take
        max_results := rfl
  have hvalsid : (((parts.foldl (fun m part => part.foldl mergeStep m) []).map
      (·.2)).map (·.video_id))
      = (parts.foldl (fun m part => part.foldl mergeStep m) []).map Prod.fst := by
    rw [List.map_map]
    apply List.map_congr_left
    intro p hp
    exact (hvals p hp).1
  refine ⟨?_, ?_, ?_, ?_, ?_⟩
  · rw [hcm, List.map_take]
    refine List.Pairwise.sublist (List.take_sublist _ _) ?_
    have hperm := (sortDesc_perm (·.view_count)
      ((parts.foldl (fun m part => part.foldl mergeStep m) []).map (·.2))).map
      (·.video_id)
    rw [hvalsid] at hperm
    exact hperm.nodup_iff.mpr hnd
  · rw [hcm]
    exact List.Pairwise.sublist (List.take_sublist _ _) (sortDesc_sorted _ _)
  · rw [hcm, List.length_take]
    exact min_le_left _ _
  · intro r hr
    rw [hcm] at hr
    have hr2 : r ∈ sortDesc (·.view_count)
        ((parts.foldl (fun m part => part.foldl mergeStep m) []).map (·.2)) :=
      (List.take_sublist _ _).subset hr
    have hr3 := (sortDesc_mem _ _ r).mp hr2
    obtain ⟨p, hp, hpe⟩ := List.mem_map.mp hr3
    obtain ⟨h1, _h2, h3, h4⟩ := hvals p hp
    subst hpe
    refine ⟨h3, ?_⟩
    intro it hit hie
    exact h4 it hit (by rw [hie, h1])
  · intro m item ex hlk hle
    exact mergeStep_keep m item ex hlk hle

/-- Candidate fixtures mirroring the merge scenario of the spec's testable
properties (same identity X seen from two keywords with different metrics). -/
def vX1000 : Video := { video_id := "X", view_count := 1000 }

def vY2000 : Video := { video_id := "Y", view_count := 2000 }

def vX5000 : Video := { video_id := "X", view_count := 5000 }

example : (collectMerge [[vX1000, vY2000], [vX5000]] 10).map
    (fun v => (v.video_id, v.view_count)) = [("X", 5000), ("Y", 2000)] := rfl

example : (collectMerge [[vX1000, vY2000], [vX1000]] 10).map
    (fun v => (v.video_id, v.view_count)) = [("Y", 2000), ("X", 1000)] := rfl

/-- Witness for C1 at the two-keyword overlap scenario. -/
theorem collect_merge_spec_witness :
    ((collectMerge [[vX1000, vY2000], [vX5000]] 10).map (·.video_id)).Nodup ∧
    (collectMerge [[vX1000, vY2000], [vX5000]] 10).length ≤ 10 :=
  ⟨(collect_merge_spec [[vX1000, vY2000], [vX5000]] 10).1,
   (collect_merge_spec [[vX1000, vY2000], [vX5000]] 10).2.2.1⟩

/-! ## Single-keyword collector

Embeds `fetch_shorts` (`src/backend/app.py` lines 52-133).  The upstream
search/details endpoints are modelled as the sequence of pages the paging loop
would receive: each page carries the search response's video ids and the
details response's items, and the loop stops on an empty id list, on reaching
`max_results`, or when no further page exists (absent `nextPageToken`).
The keyword, `days` and `region` arguments only shape the upstream query
parameters, i.e. which pages come back; quantifying over all page sequences
covers all of their values.  A non-200 upstream status raises and is outside
the data path modelled here. -/

structure DetailItem where
  id : String := ""
  title : String := ""
  channelId : String := ""
  channelTitle : String := ""
  publishedAt : String := ""
  duration : String := ""
  viewCount : Option Nat := none
  likeCount : Option Nat := none
  commentCount : Option Nat := none
  tags : List String := []
deriving Repr, DecidableEq

structure Page where
  videoIds : List String := []
  items : List DetailItem := []
deriving Repr, DecidableEq

/-- Building the candidate dict (`src/backend/app.py` lines 112-125): absent
statistics default to 0 via `int(stats.get(..., 0))`. -/
def mkVideo (it : DetailItem) (d : Nat) : Video :=
  { video_id := it.id
    title := it.title
    channel_id := it.channelId
    channel_title := it.channelTitle
    published_at := it.publishedAt
    duration_seconds := d
    view_count := it.viewCount.getD 0
    like_count := it.likeCount.getD 0
    comment_count := it.commentCount.getD 0
    tags := it.tags }

/-- The inner details loop (`src/backend/app.py` lines 103-127): drop items
whose decoded duration is 0 or over 60, append the rest, stop once
`max_results` is reached. -/
def processDetails (max_results : Nat) : List DetailItem → List Video → List Video
  | [], acc => acc
  | it :: t, acc =>
    let d := parse_iso_duration it.duration
    if d = 0 ∨ 60 < d then processDetails max_results t acc
    else
      let acc' := acc ++ [mkVideo it d]
      if max_results ≤ acc'.length then acc' else processDetails max_results t acc'

/-- The paging `while` loop (`src/backend/app.py` lines 61-131). -/
def fetchPages (max_results : Nat) : List Page → List Video → List Video
  | [], acc => acc
  | pg :: rest, acc =>
    if acc.length < max_results then
      if (pg.videoIds.filter (· ≠ "")).isEmpty then acc
      else
        let acc' := processDetails max_results pg.items acc
        match rest with
        | [] => acc'
        | _ => fetchPages max_results rest acc'
    else acc

/-- `fetch_shorts`: run the paging loop, then
`sorted(collected, key=view_count, reverse=True)[:max_results]`. -/
def fetch_shorts (max_results : Nat) (pages : List Page) : List Video :=
  (sortDesc (·.view_count) (fetchPages max_results pages [])).take max_results

theorem processDetails_mem (max_results : Nat) (items : List DetailItem) :
    ∀ (acc : List Video) (v : Video), v ∈ processDetails max_results items acc →
    v ∈ acc ∨ ∃ it ∈ items,
      ¬(parse_iso_duration it.duration = 0 ∨ 60 < parse_iso_duration it.duration) ∧
      v = mkVideo it (parse_iso_duration it.duration) := by
  induction items with
  | nil => intro acc v hv; exact Or.inl hv
  | cons it t ih =>
    intro acc v hv
    simp only [processDetails] at hv
    by_cases hd : parse_iso_duration it.duration = 0 ∨ 60 < parse_iso_duration it.duration
    · rw [if_pos hd] at hv
      rcases ih acc v hv with h | ⟨jt, hjt, hgood, hve⟩
      · exact Or.inl h
      · exact Or.inr ⟨jt, List.mem_cons.mpr (Or.inr hjt), hgood, hve⟩
    · rw [if_neg hd] at hv
      by_cases hlen : max_results ≤ (acc ++ [mkVideo it (parse_iso_duration it.duration)]).length
      · rw [if_pos hlen] at hv
        rcases List.mem_append.mp hv with h | h
        · exact Or.inl h
        · obtain rfl := List.mem_singleton.mp h
          exact Or.inr ⟨it, List.mem_cons.mpr (Or.inl rfl), hd, rfl⟩
      · rw [if_neg hlen] at hv
        rcases ih _ v hv with h | ⟨jt, hjt, hgood, hve⟩
        · rcases List.mem_append.mp h with h | h
          · exact Or.inl h
          · obtain rfl := List.mem_singleton.mp h
            exact Or.inr ⟨it, List.mem_cons.mpr (Or.inl rfl), hd, rfl⟩
        · exact Or.inr ⟨jt, List.mem_cons.mpr (Or.inr hjt), hgood, hve⟩

theorem fetchPages_mem (max_results : Nat) (pages : List Page) :
    ∀ (acc : List Video) (v : Video), v ∈ fetchPages max_results pages acc →
    v ∈ acc ∨ ∃ it ∈ (pages.map (·.items)).flatten,
      ¬(parse_iso_duration it.duration = 0 ∨ 60 < parse_iso_duration it.duration) ∧
      v = mkVideo it (parse_iso_duration it.duration) := by
  induction pages with
  | nil => intro acc v hv; exact Or.inl hv
  | cons pg rest ih =>
    intro acc v hv
    simp only [fetchPages] at hv
    by_cases hw : acc.length < max_results
    · rw [if_pos hw] at hv
      by_cases hids : (pg.videoIds.filter (· ≠ "")).isEmpty
      · rw [if_pos hids] at hv
        exact Or.inl hv
      · rw [if_neg hids] at hv
        have step : ∀ w, w ∈ processDetails max_results pg.items acc →
            w ∈ acc ∨ ∃ it ∈ (pg :: rest).map (·.items) |>.flatten,
              ¬(parse_iso_duration it.duration = 0 ∨ 60 < parse_iso_duration it.duration) ∧
              w = mkVideo it (parse_iso_duration it.duration) := by
          intro w hw'
          rcases processDetails_mem max_results pg.items acc w hw' with h | ⟨it, hit, hg, he⟩
          · exact Or.inl h
          · exact Or.inr ⟨it, by simp [List.mem_flatten]; exact Or.inl hit, hg, he⟩
        cases rest with
        | nil => exact step v hv
        | cons pg2 rest2 =>
          rcases ih _ v hv with h | ⟨it, hit, hg, he⟩
          · rcases step v h with h' | ⟨it, hit, hg, he⟩
            · exact Or.inl h'
            · exact Or.inr ⟨it, hit, hg, he⟩
          · refine Or.inr ⟨it, ?_, hg, he⟩
            simp only [List.map_cons, List.flatten_cons]
            exact List.mem_append_right _ hit
    · rw [if_neg hw] at hv
      exact Or.inl hv

/-- C2: for every `max_results` and upstream page sequence (hence for every
keyword, days and region), `fetch_shorts` returns at most `max_results`
candidates, sorted by view_count descending, each built from some upstream
detail record via `mkVideo` (absent metrics defaulting to 0) with decoded
duration `d` satisfying `0 < d ≤ 60`. -/
theorem fetch_shorts_spec (max_results : Nat) (pages : List Page) :
    (fetch_shorts max_results pages).length ≤ max_results ∧
    (fetch_shorts max_results pages).Pairwise (fun a b => b.view_count ≤ a.view_count) ∧
    ∀ v ∈ fetch_shorts max_results pages,
      0 < v.duration_seconds ∧ v.duration_seconds ≤ 60 ∧
      ∃ it ∈ (pages.map (·.items)).flatten,
        parse_iso_duration it.duration = v.duration_seconds ∧
        v = mkVideo it (parse_iso_duration it.duration) := by
  refine ⟨?_, ?_, ?_⟩
  · rw [fetch_shorts, List.length_take]
    exact min_le_left _ _
  · exact List.Pairwise.sublist (List.take_sublist _ _) (sortDesc_sorted _ _)
  · intro v hv
    have hv2 : v ∈ sortDesc (·.view_count) (fetchPages max_results pages []) :=
      (List.take_sublist _ _).subset hv
    have hv3 := (sortDesc_mem _ _ v).mp hv2
    rcases fetchPages_mem max_results pages [] v hv3 with h | ⟨it, hit, hg, he⟩
    · simp at h
    · push_neg at hg
      obtain ⟨hg0, hg60⟩ := hg
      have hd : v.duration_seconds = parse_iso_duration it.duration := by
        rw [he]; simp [mkVideo]
      refine ⟨?_, ?_, it, hit, hd.symm, he⟩
      · rw [hd]; exact Nat.pos_of_ne_zero hg0
      · rw [hd]; exact hg60

/-! ## Favorites store

Embeds `src/backend/db.py`.  The `favorites` table (primary key `video_id`)
and append-only `view_history` table become Lean lists; `created_at` /
`recorded_at` ISO-8601 UTC strings become integer instants (for the fixed
format the code writes, lexicographic string comparison and chronological
comparison agree); `datetime.now` becomes an explicit `now` argument. -/

structure FavRow where
  video_id : String
  title : String := ""
  channel_id : String := ""
  channel_title : String := ""
  thumbnail_url : String := ""
  created_at : Int := 0
  is_active : Bool := true
deriving Repr, DecidableEq

structure Snap where
  video_id : String
  view_count : Int
  like_count : Option Int := none
  comment_count : Option Int := none
  recorded_at : Int := 0
deriving Repr, DecidableEq

structure FavDB where
  favorites : List FavRow := []
  view_history : List Snap := []
deriving Repr, DecidableEq

/-- `TRACKING_EXPIRY_DAYS = 14` (`src/backend/db.py` line 13). -/
def TRACKING_EXPIRY_DAYS : Int := 14

structure AddResult where
  success : Bool
  video_id : String
  reactivated : Bool := false
deriving Repr, DecidableEq

/-- Whether an `INSERT` on the `video_id` primary key would raise
`sqlite3.IntegrityError`. -/
def hasRow (db : FavDB) (vid : String) : Bool :=
  db.favorites.any (fun r => r.video_id = vid)

/-- `add_favorite` (`src/backend/db.py` lines 64-92): insert a fresh row, or
on a primary-key collision unconditionally set `is_active = 1` and
`created_at = now` and report `reactivated`. -/
def add_favorite (db : FavDB)
    (video_id title channel_id channel_title thumbnail_url : String) (now : Int) :
    AddResult × FavDB :=
  if hasRow db video_id then
    ({ success := true, video_id := video_id, reactivated := true },
     { db with favorites := db.favorites.map (fun r =>
        if r.video_id = video_id then { r with is_active := true, created_at := now }
        else r) })
  else
    ({ success := true, video_id := video_id },
     { db with favorites := db.favorites ++
        [{ video_id := video_id, title := title, channel_id := channel_id,
           channel_title := channel_title, thumbnail_url := thumbnail_url,
           created_at := now, is_active := true }] })

structure RemoveResult where
  success : Bool
  video_id : String
deriving Repr, DecidableEq

/-- `remove_favorite` (`src/backend/db.py` lines 95-108): soft delete; the
update's rowcount is the number of matching rows. -/
def remove_favorite (db : FavDB) (video_id : String) : RemoveResult × FavDB :=
  ({ success := hasRow db video_id, video_id := video_id },
   { db with favorites := db.favorites.map (fun r =>
      if r.video_id = video_id then { r with is_active := false } else r) })

/-- `get_favorites` (`src/backend/db.py` lines 111-124): active-only by
default, ordered by `created_at` descending. -/
def get_favorites (db : FavDB) (include_inactive : Bool := false) : List FavRow :=
  if include_inactive then sortDesc (·.created_at) db.favorites
  else sortDesc (·.created_at) (db.favorites.filter (·.is_active))

/-- `get_active_favorites_for_tracking` (`src/backend/db.py` lines 127-143). -/
def get_active_favorites_for_tracking (db : FavDB) (now : Int) : List FavRow :=
  let cutoff := now - TRACKING_EXPIRY_DAYS * 86400
  sortDesc (·.created_at)
    (db.favorites.filter (fun r => r.is_active && decide (cutoff ≤ r.created_at)))

/-- `record_view_count` (`src/backend/db.py` lines 146-166): append-only
insert into `view_history`. -/
def record_view_count (db : FavDB) (video_id : String) (view_count : Int)
    (like_count comment_count : Option Int) (now : Int) : FavDB :=
  { db with view_history := db.view_history ++
     [{ video_id := video_id, view_count := view_count, like_count := like_count,
        comment_count := comment_count, recorded_at := now }] }

/-- C6: from an empty store, `add v1; remove v1` leaves the default (active
only) list empty while the row physically remains; re-adding reports
`reactivated = true`, flips `is_active` back on and refreshes `created_at`,
after which the default list has exactly one entry; and `remove` never
deletes rows or history, it only flips `is_active`. -/
theorem favorite_lifecycle_spec :
    (get_favorites (remove_favorite (add_favorite {} "v1" "Video 1" "" "" "" 100).2 "v1").2
       = [] ∧
     ((remove_favorite (add_favorite {} "v1" "Video 1" "" "" "" 100).2 "v1").2.favorites.map
        (fun r => (r.video_id, r.is_active)) = [("v1", false)]) ∧
     (add_favorite (remove_favorite (add_favorite {} "v1" "Video 1" "" "" "" 100).2 "v1").2
        "v1" "Video 1" "" "" "" 200).1.reactivated = true ∧
     ((add_favorite (remove_favorite (add_favorite {} "v1" "Video 1" "" "" "" 100).2 "v1").2
        "v1" "Video 1" "" "" "" 200).2.favorites.map
        (fun r => (r.video_id, r.is_active, r.created_at)) = [("v1", true, 200)]) ∧
     (get_favorites (add_favorite
        (remove_favorite (add_favorite {} "v1" "Video 1" "" "" "" 100).2 "v1").2
        "v1" "Video 1" "" "" "" 200).2).length = 1) ∧
    ∀ (db : FavDB) (vid : String),
      (remove_favorite db vid).2.favorites.map (·.video_id)
          = db.favorites.map (·.video_id) ∧
      (remove_favorite db vid).2.view_history = db.view_history := by
  refine ⟨by decide, ?_⟩
  intro db vid
  refine ⟨?_, rfl⟩
  simp only [remove_favorite, List.map_map]
  apply List.map_congr_left
  intro r _
  by_cases h : r.video_id = vid <;> simp [h]

/-- C10: re-adding an identity that already has a favorites row — even an
active one — unconditionally sets `is_active`, resets `created_at` to now and
reports `reactivated = true`; the reactivation branch is keyed solely on the
primary-key collision, never on `is_active`. -/
theorem add_favorite_reactivates_unconditionally (db : FavDB)
    (vid title cid ctitle thumb : String) (now : Int)
    (h : hasRow db vid = true) :
    (add_favorite db vid title cid ctitle thumb now).1.reactivated = true ∧
    ∀ r ∈ (add_favorite db vid title cid ctitle thumb now).2.favorites,
      r.video_id = vid → r.is_active = true ∧ r.created_at = now := by
  refine ⟨by simp [add_favorite, h], ?_⟩
  intro r hr hrv
  simp only [add_favorite, h, if_pos] at hr
  obtain ⟨r0, hr0, hre⟩ := List.mem_map.mp hr
  by_cases h0 : r0.video_id = vid
  · rw [if_pos h0] at hre
    subst hre
    exact ⟨rfl, rfl⟩
  · rw [if_neg h0] at hre
    subst hre
    exact absurd hrv h0

/-- Witness for C10: a store whose only row for `v1` is still active is
nevertheless "reactivated" with a fresh `created_at`. -/
theorem add_favorite_reactivates_unconditionally_witness :
    (add_favorite { favorites := [{ video_id := "v1", created_at := 50, is_active := true }] }
      "v1" "T" "" "" "" 200).1.reactivated = true :=
  (add_favorite_reactivates_unconditionally
    { favorites := [{ video_id := "v1", created_at := 50, is_active := true }] }
    "v1" "T" "" "" "" 200 (by decide)).1

/-- Fixture: an active favorite created 15 days before the reference instant. -/
def favOld15 : FavRow := { video_id := "v_old", title := "Old", created_at := 0 }

/-- Fixture: an active favorite created at the reference instant. -/
def favToday : FavRow := { video_id := "v_new", title := "New", created_at := 15 * 86400 }

/-- Fixture: an inactive favorite created at the reference instant. -/
def favOffToday : FavRow :=
  { video_id := "v_off", title := "Off", created_at := 15 * 86400, is_active := false }

/-- C7: `get_active_favorites_for_tracking` returns exactly the favorites that
are active with `created_at` within 14 days of now, ordered by `created_at`
descending; concretely, a favorite created 15 days ago is excluded, one
created today is included, and an inactive favorite is excluded regardless of
age. -/
theorem list_trackable_spec (db : FavDB) (now : Int) :
    (∀ r, r ∈ get_active_favorites_for_tracking db now ↔
      (r ∈ db.favorites ∧ r.is_active = true ∧ now - 14 * 86400 ≤ r.created_at)) ∧
    (get_active_favorites_for_tracking db now).Pairwise
      (fun a b => b.created_at ≤ a.created_at) ∧
    get_active_favorites_for_tracking
      { favorites := [favOld15, favToday, favOffToday] } (15 * 86400) = [favToday] := by
  refine ⟨?_, ?_, by decide⟩
  · intro r
    simp only [get_active_favorites_for_tracking, TRACKING_EXPIRY_DAYS, sortDesc_mem,
      List.mem_filter, Bool.and_eq_true, decide_eq_true_eq]
  · exact sortDesc_sorted _ _

/-! ## The favorites POST endpoint

`src/backend/app.py` lines 242-272 read the payload and call
`db.add_favorite(video_id=..., title=..., channel_id=..., channel_title=...,
thumbnail_url=..., published_at=...)`.  The callee defined at
`src/backend/db.py` lines 64-70 accepts no `published_at` parameter, so the
call raises `TypeError: add_favorite() got an unexpected keyword argument`
before touching the store, and Flask turns the uncaught exception into a 500
response.  Python's keyword-call rule is embedded explicitly: a call succeeds
only when every keyword named at the call site is a parameter of the callee. -/

/-- Parameter names of `db.add_favorite` (`src/backend/db.py` lines 64-70). -/
def db_add_favorite_params : List String :=
  ["video_id", "title", "channel_id", "channel_title", "thumbnail_url"]

/-- Keyword arguments the route passes (`src/backend/app.py` lines 253-260). -/
def add_favorite_route_kwargs : List String :=
  ["video_id", "title", "channel_id", "channel_title", "thumbnail_url", "published_at"]

structure AddPayload where
  video_id : String := ""
  title : String := ""
  channel_id : String := ""
  channel_title : String := ""
  thumbnail_url : String := ""
  published_at : String := ""
  view_count : Option Int := none
  like_count : Option Int := none
  comment_count : Option Int := none
deriving Repr, DecidableEq

inductive RouteResp (α : Type) where
  | ok (body : α)
  | badRequest (msg : String)
  | serverError (msg : String)
deriving Repr, DecidableEq

/-- The `/favorites` POST route (`src/backend/app.py` lines 242-272). -/
def add_favorite_route (db : FavDB) (payload : AddPayload) (now : Int) :
    RouteResp AddResult × FavDB :=
  if payload.video_id = "" then (.badRequest "video_id is required", db)
  else if add_favorite_route_kwargs.all (db_add_favorite_params.contains ·) then
    let (res, db1) := add_favorite db payload.video_id payload.title payload.channel_id
      payload.channel_title payload.thumbnail_url now
    match payload.view_count with
    | some vc =>
      (.ok res, record_view_count db1 payload.video_id vc payload.like_count
        payload.comment_count now)
    | none => (.ok res, db1)
  else (.serverError "TypeError: add_favorite() got an unexpected keyword argument", db)

/-- C5 (code bug): the route's call site names the keyword `published_at`,
which `db.add_favorite` does not accept, so every well-formed add request
(identity present) ends in a `TypeError`-driven 500 rather than the success
payload, and no insert, reactivation or initial snapshot happens. -/
theorem add_favorite_route_type_error :
    add_favorite_route_kwargs.all (db_add_favorite_params.contains ·) = false ∧
    (add_favorite_route {}
      { video_id := "test123", title := "Test Video", channel_title := "Test Channel",
        view_count := some 1000 } 0).1
      = .serverError "TypeError: add_favorite() got an unexpected keyword argument" ∧
    (add_favorite_route {}
      { video_id := "test123", title := "Test Video", channel_title := "Test Channel",
        view_count := some 1000 } 0).2 = {} := by
  decide

/-! ## The refresh endpoint

`src/backend/app.py` lines 275-308 (`/favorites/refresh`).  Note the route
selects `get_favorites()` — all active favorites — not
`get_active_favorites_for_tracking()`; the upstream batch-statistics lookup
is modelled as the oracle `stats` consulted per identity (the code fetches it
in batches of 50 and then looks each identity up in the returned mapping). -/

structure Stats where
  view_count : Int
  like_count : Int
  comment_count : Int
deriving Repr, DecidableEq

structure RefreshResult where
  total : Nat
  updated : Nat
  missing : List String
deriving Repr, DecidableEq

/-- `video_ids[i:i+batch_size]` batching of the `range(0, len, batch_size)`
loop, with an explicit fuel bounding the number of batches. -/
def chunksGo {α : Type} (n : Nat) : Nat → List α → List (List α)
  | 0, _ => []
  | _, [] => []
  | fuel + 1, a :: t => ((a :: t).take n) :: chunksGo n fuel ((a :: t).drop n)

def chunksOf {α : Type} (n : Nat) (l : List α) : List (List α) :=
  chunksGo n l.length l

theorem chunksGo_flatten {α : Type} (n : Nat) (hn : n ≠ 0) :
    ∀ (fuel : Nat) (l : List α), l.length ≤ fuel → (chunksGo n fuel l).flatten = l := by
  intro fuel
  induction fuel with
  | zero =>
    intro l hl
    cases l with
    | nil => rfl
    | cons a t => simp at hl
  | succ f ih =>
    intro l hl
    cases l with
    | nil => rfl
    | cons a t =>
      simp only [chunksGo, List.flatten_cons]
      rw [ih ((a :: t).drop n) ?_, List.take_append_drop]
      rw [List.length_drop]
      simp only [List.length_cons] at hl ⊢
      omega

theorem chunksOf_flatten {α : Type} (n : Nat) (hn : n ≠ 0) (l : List α) :
    (chunksOf n l).flatten = l :=
  chunksGo_flatten n hn l.length l (le_refl _)

/-- Body of the per-identity loop (`src/backend/app.py` lines 295-306): an
identity with no stats entry is appended to `missing`; otherwise a snapshot
is recorded and `updated` is incremented. -/
def refreshApply (stats : String → Option Stats) (now : Int)
    (st : (Nat × List String) × FavDB) (vid : String) : (Nat × List String) × FavDB :=
  match stats vid with
  | none => ((st.1.1, st.1.2 ++ [vid]), st.2)
  | some s =>
    ((st.1.1 + 1, st.1.2),
     record_view_count st.2 vid s.view_count (some s.like_count) (some s.comment_count) now)

/-- The `/favorites/refresh` route (`src/backend/app.py` lines 275-308). -/
def refresh_favorites_route (db : FavDB) (stats : String → Option Stats) (now : Int) :
    RefreshResult × FavDB :=
  let favorites := get_favorites db
  let video_ids := (favorites.map (·.video_id)).filter (· ≠ "")
  if video_ids = [] then ({ total := 0, updated := 0, missing := [] }, db)
  else
    let st := (chunksOf 50 video_ids).foldl
      (fun st batch => batch.foldl (refreshApply stats now) st) ((0, []), db)
    ({ total := video_ids.length, updated := st.1.1, missing := st.1.2 }, st.2)

/-- C4 counterexample: with one active favorite created 15 days ago, the
trackable set is empty, yet the refresh endpoint selects it anyway — the
route reads `get_favorites()` (all active favorites), not
`get_active_favorites_for_tracking()`, so its `total` is 1 while the
trackable-favorite count is 0. -/
theorem refresh_route_selects_beyond_window :
    (get_active_favorites_for_tracking { favorites := [favOld15] } (15 * 86400)).length = 0 ∧
    (refresh_favorites_route { favorites := [favOld15] } (fun _ => none) (15 * 86400)).1.total = 1 ∧
    (refresh_favorites_route { favorites := [favOld15] } (fun _ => none) (15 * 86400)).1.total
      ≠ (get_active_favorites_for_tracking { favorites := [favOld15] } (15 * 86400)).length := by
  decide

theorem refreshApply_fold (stats : String → Option Stats) (now : Int) :
    ∀ (l : List String) (u : Nat) (miss : List String) (d : FavDB),
    (l.foldl (refreshApply stats now) ((u, miss), d)).1.1
        = u + (l.filter (fun v => (stats v).isSome)).length ∧
    (l.foldl (refreshApply stats now) ((u, miss), d)).1.2
        = miss ++ l.filter (fun v => (stats v).isNone) ∧
    (l.foldl (refreshApply stats now) ((u, miss), d)).2.favorites = d.favorites ∧
    (l.foldl (refreshApply stats now) ((u, miss), d)).2.view_history.length
        = d.view_history.length + (l.filter (fun v => (stats v).isSome)).length := by
  intro l
  induction l with
  | nil => intro u miss d; simp
  | cons v t ih =>
    intro u miss d
    simp only [List.foldl_cons]
    cases hs : stats v with
    | none =>
      obtain ⟨e1, e2, e3, e4⟩ := ih u (miss ++ [v]) d
      simp only [refreshApply, hs]
      refine ⟨?_, ?_, e3, ?_⟩
      · rw [e1, List.filter_cons]; simp [hs]
      · rw [e2, List.filter_cons]; simp [hs, List.append_assoc]
      · rw [e4, List.filter_cons]; simp [hs]
    | some s =>
      obtain ⟨e1, e2, e3, e4⟩ := ih (u + 1)
        miss (record_view_count d v s.view_count (some s.like_count) (some s.comment_count) now)
      simp only [refreshApply, hs]
      refine ⟨?_, ?_, ?_, ?_⟩
      · rw [e1, List.filter_cons]; simp [hs]; omega
      · rw [e2, List.filter_cons]; simp [hs]
      · rw [e3]; rfl
      · rw [e4, List.filter_cons]; simp [hs, record_view_count]; omega

/-- C4 amended: the refresh endpoint selects all active favorites with a
non-empty identity, regardless of the 14-day tracking window; its `total` is
that count before batching, `updated` counts the snapshot appends performed,
every selected identity with no returned stats entry is accumulated into
`missing` in order, and the favorites table itself is untouched. -/
theorem refresh_route_spec (db : FavDB) (stats : String → Option Stats) (now : Int) :
    (refresh_favorites_route db stats now).1.total
      = (((get_favorites db).map (·.video_id)).filter (· ≠ "")).length ∧
    (refresh_favorites_route db stats now).1.updated
      = ((((get_favorites db).map (·.video_id)).filter (· ≠ "")).filter
          (fun v => (stats v).isSome)).length ∧
    (refresh_favorites_route db stats now).1.missing
      = (((get_favorites db).map (·.video_id)).filter (· ≠ "")).filter
          (fun v => (stats v).isNone) ∧
    (refresh_favorites_route db stats now).2.favorites = db.favorites ∧
    (refresh_favorites_route db stats now).2.view_history.length
      = db.view_history.length + (refresh_favorites_route db stats now).1.updated := by
  by_cases hids : ((get_favorites db).map (·.video_id)).filter (· ≠ "") = []
  · have hre : refresh_favorites_route db stats now
        = ({ total := 0, updated := 0, missing := [] }, db) := by
      simp only [refresh_favorites_route]
      rw [if_pos hids]
    rw [hre, hids]
    simp
  · have hch : (chunksOf 50 (((get_favorites db).map (·.video_id)).filter (· ≠ ""))).foldl
        (fun st batch => batch.foldl (refreshApply stats now) st) ((0, []), db)
        = (((get_favorites db).map (·.video_id)).filter (· ≠ "")).foldl
            (refreshApply stats now) ((0, []), db) := by
      rw [← List.foldl_flatten, chunksOf_flatten 50 (by decide)]
    have hre : refresh_favorites_route db stats now
        = ({ total := (((get_favorites db).map (·.video_id)).filter (· ≠ "")).length,
             updated := ((((get_favorites db).map (·.video_id)).filter (· ≠ "")).foldl
               (refreshApply stats now) ((0, []), db)).1.1,
             missing := ((((get_favorites db).map (·.video_id)).filter (· ≠ "")).foldl
               (refreshApply stats now) ((0, []), db)).1.2 },
           ((((get_favorites db).map (·.video_id)).filter (· ≠ "")).foldl
               (refreshApply stats now) ((0, []), db)).2) := by
      simp only [refresh_favorites_route]
      rw [if_neg hids, hch]
    obtain ⟨e1, e2, e3, e4⟩ := refreshApply_fold stats now
      (((get_favorites db).map (·.video_id)).filter (· ≠ "")) 0 [] db
    rw [hre]
    dsimp only
    refine ⟨rfl, e1.trans (Nat.zero_add _), e2.trans (List.nil_append _), e3, ?_⟩
    rw [e4, e1]
    omega

/-! ## The `/collect` endpoint's input handling

Embeds `src/backend/app.py` lines 171-219: keyword normalisation
(strip, drop empties, case-insensitive dedup preserving first occurrence,
fall back to the single `keywords` string), the falsy-OR default for
`max_results`, the default of 7 for absent `days`, and the three validation
gates that answer 400 before any upstream call or file write. -/

structure CollectPayload where
  keywords : String := ""
  keyword_list : List String := []
  max_results : Option Int := none
  days : Option Int := none
  region : String := ""
deriving Repr, DecidableEq

/-- Python's `str.strip()`: drop leading and trailing whitespace. -/
def pyStrip (s : String) : String :=
  String.mk (((s.data.dropWhile Char.isWhitespace).reverse.dropWhile
    Char.isWhitespace).reverse)

/-- Python's `str.lower()` (basic-latin case folding, as in the keyword keys
the code compares). -/
def pyLower (s : String) : String :=
  String.mk (s.data.map Char.toLower)

/-- Case-insensitive dedup preserving first occurrence
(`src/backend/app.py` lines 179-187); the `seen` set becomes a list of
lowercased keys. -/
def dedupCI (l : List String) : List String :=
  (l.foldl (fun (acc : List String × List String) kw =>
    if acc.2.contains (pyLower kw) then acc
    else (acc.1 ++ [kw], acc.2 ++ [pyLower kw])) ([], [])).1

/-- The effective keyword list after normalisation, dedup and the fallback to
the `keywords` string (`src/backend/app.py` lines 174-196). -/
def effectiveKeywords (p : CollectPayload) : List String :=
  let keywords := pyStrip p.keywords
  let kl := dedupCI ((p.keyword_list.map pyStrip).filter (· ≠ ""))
  if kl = [] ∧ keywords ≠ "" then [keywords] else kl

/-- `int(payload.get("max_results") or 20)`: absent or falsy (0) becomes the
default 20. -/
def collect_max_results (p : CollectPayload) : Int :=
  match p.max_results with
  | none => 20
  | some n => if n = 0 then 20 else n

/-- `int(days) if days not in (None, "") else 7`. -/
def collect_days (p : CollectPayload) : Int := p.days.getD 7

structure CollectResp where
  status : Nat
  error : Option String := none
  total : Option Nat := none
  fetchedKeywords : List String := []
  saved : Option (List Video) := none
deriving Repr, DecidableEq

/-- The `/collect` route (`src/backend/app.py` lines 171-219); the
per-keyword collector is the oracle `fetch`, `fetchedKeywords` records the
keywords for which an upstream collection was started, and `saved` the
`save_data` write. -/
def collect_route (p : CollectPayload) (fetch : String → List Video) : CollectResp :=
  let keyword_list := effectiveKeywords p
  if keyword_list = [] then
    { status := 400, error := some "keywords is required" }
  else if collect_max_results p < 1 ∨ 10000 < collect_max_results p then
    { status := 400, error := some "max_results must be between 1 and 10000" }
  else if collect_days p < 0 then
    { status := 400, error := some "days must be non-negative" }
  else
    let records := collectMerge (keyword_list.map fetch) (collect_max_results p).toNat
    { status := 200, total := some records.length, fetchedKeywords := keyword_list,
      saved := some records }

/-- C8: whenever the effective (deduplicated, fallback-applied) keyword list
is empty, or the effective `max_results` falls outside `[1, 10000]`, or the
effective `days` is negative, `/collect` answers 400 immediately: no upstream
collection is started and nothing is written. -/
theorem collect_route_validation (p : CollectPayload) (fetch : String → List Video)
    (h : effectiveKeywords p = [] ∨ collect_max_results p < 1 ∨
      10000 < collect_max_results p ∨ collect_days p < 0) :
    (collect_route p fetch).status = 400 ∧
    (collect_route p fetch).fetchedKeywords = [] ∧
    (collect_route p fetch).saved = none := by
  by_cases h1 : effectiveKeywords p = []
  · simp [collect_route, h1]
  · by_cases h2 : collect_max_results p < 1 ∨ 10000 < collect_max_results p
    · simp [collect_route, h1, h2]
    · by_cases h3 : collect_days p < 0
      · simp [collect_route, h1, h2, h3]
      · rcases h with h | h | h | h
        · exact absurd h h1
        · exact absurd (Or.inl h) h2
        · exact absurd (Or.inr h) h2
        · exact absurd h h3

/-- Witness for C8 at `max_results = 10001` (and a non-empty keyword). -/
theorem collect_route_validation_witness :
    (collect_route { keywords := "test", max_results := some 10001 }
      (fun _ => [])).status = 400 ∧
    (collect_route { keywords := "test", max_results := some 10001 }
      (fun _ => [])).fetchedKeywords = [] ∧
    (collect_route { keywords := "test", max_results := some 10001 }
      (fun _ => [])).saved = none :=
  collect_route_validation { keywords := "test", max_results := some 10001 }
    (fun _ => []) (Or.inr (Or.inr (Or.inl (by decide))))

example : (collect_route { keywords := "test", days := some (-1) } (fun _ => [])).status
    = 400 := by decide

example : (collect_route { keywords := "", keyword_list := ["", "  "] }
    (fun _ => [])).status = 400 := by decide

example : (collect_route { keywords := "test" }
    (fun _ => [vX1000])).status = 200 := by decide

/-! ## Recency gate

Modelled from the spec: `within_days` is imported from `app` by
`src/backend/tests/test_app.py` (lines 14-18) but no definition of it exists
in `src/backend/app.py`, so the gate is modelled from spec §4.2
(`is_within(timestamp, days)`).  The ISO-8601 parser is abstracted as the
oracle `parse` (`none` = parse failure), `now` is the current UTC instant and
day counts convert at 86400 seconds. -/

def within_days (parse : String → Option Int) (now : Int)
    (timestamp : String) (days : Option Int) : Bool :=
  match days with
  | none => true
  | some d =>
    match parse timestamp with
    | none => true
    | some ts => decide (now - d * 86400 ≤ ts)

/-- C9: the recency gate is total (never raises): with absent `days` it
accepts every timestamp, malformed ones included; an unparseable timestamp is
accepted permissively; otherwise it accepts exactly the timestamps at or
after `now` minus `days` days. -/
theorem within_days_spec (parse : String → Option Int) (now : Int)
    (timestamp : String) (d : Int) :
    within_days parse now timestamp none = true ∧
    (parse timestamp = none → within_days parse now timestamp (some d) = true) ∧
    (∀ ts, parse timestamp = some ts →
      (within_days parse now timestamp (some d) = true ↔ now - d * 86400 ≤ ts)) := by
  refine ⟨rfl, ?_, ?_⟩
  · intro h
    simp [within_days, h]
  · intro ts h
    simp [within_days, h]

/-- Witness for C9: the spec's `is_within("not-a-date", 7)` example under a
parser that rejects the input. -/
theorem within_days_spec_witness :
    within_days (fun _ => none) 0 "not-a-date" none = true ∧
    within_days (fun _ => none) 0 "not-a-date" (some 7) = true :=
  ⟨(within_days_spec (fun _ => none) 0 "not-a-date" 7).1,
   (within_days_spec (fun _ => none) 0 "not-a-date" 7).2.1 rfl⟩

end YTShorts
